import Mathlib

/-!
Verification of the GCN-Localhost Express backend (`backend/server.js`)
against its natural-language specification.

The relevant request handlers are shallowly embedded as pure Lean
functions.  The PostgreSQL tables (`chat_sessions`, `chat_history`,
`chat_memory`, `products`) are modelled as insertion-ordered lists of
row structures inside a `DB` record; parameterized SQL statements
become list operations on those rows.  The asynchronous upstream AI
service is modelled as a function from the attempt index to an
`Except` outcome, so that the retry loop's invocation count is
observable.  Randomness (the related-query shuffle, `crypto.randomUUID`,
timestamps) is passed in as explicit parameters.
-/

namespace GCN

/-- One role-tagged chat-memory message (`{role, content}` objects stored
in the `chat_memory.memory` JSONB column). -/
structure Msg where
  role : String
  content : String
deriving DecidableEq, Repr

/-- One element of a `related_queries` JSON array coming back from the
upstream AI service: either a bare JSON string or a JSON object,
modelled as an ordered list of string key/value fields (the handler
only distinguishes strings from non-strings, via `typeof item`). -/
inductive JItem where
  | str (s : String)
  | obj (fields : List (String × String))
deriving DecidableEq, Repr

/-- A `chat_sessions` row: `chat_id` is the primary key. -/
structure Session where
  chat_id : String
  name : String
  user_id : String
  favorite : Bool
deriving DecidableEq, Repr

/-- A `chat_history` row (side-channel JSON columns other than
`relevant_queries` are omitted: no claim mentions them). -/
structure HEntry where
  chat_id : String
  query : String
  answer : String
  user_id : String
  relevant_queries : List JItem
deriving DecidableEq, Repr

/-- A `chat_memory` row; `chat_id` carries a UNIQUE constraint. -/
structure MemRow where
  chat_id : String
  memory : List Msg
deriving DecidableEq, Repr

/-- A `products` row. -/
structure Product where
  title : String
  info : String
  color : String
  user_id : String
deriving DecidableEq, Repr

/-- The database state: the four tables the verified handlers touch,
each as an insertion-ordered list of rows. -/
structure DB where
  sessions : List Session
  history : List HEntry
  memory : List MemRow
  products : List Product
deriving DecidableEq, Repr

/-- HTTP outcome classes used by the handlers: 200, 400, 403, 404, 500. -/
inductive Resp where
  | ok
  | badRequest
  | accessDenied
  | notFound
  | serverError
deriving DecidableEq, Repr

/-! ## Retry Executor (`retryRequest`, server.js lines 44-83)

The JS loop runs `attempt = 0 .. retries`, returning on the first
success, remembering the last error, and throwing it after the final
failed attempt.  The wrapped operation is modelled as a function from
the attempt index to an `Except` outcome; the result is paired with
the total number of invocations performed. -/

/-- The retry loop body: perform attempts `attempt`, `attempt+1`, ...
while `remaining` further attempts are allowed after the current one.
Returns the final outcome and `lastAttempt + 1` (the total number of
invocations when started at `attempt = 0`). -/
def retryGo {E A : Type} (op : Nat → Except E A) (attempt : Nat) : Nat → Except E A × Nat
  | 0 =>
    match op attempt with
    | Except.ok a => (Except.ok a, attempt + 1)
    | Except.error e => (Except.error e, attempt + 1)
  | r + 1 =>
    match op attempt with
    | Except.ok a => (Except.ok a, attempt + 1)
    | Except.error _ => retryGo op (attempt + 1) r

/-- `retryRequest(fn, retries, delay)`: up to `retries + 1` invocations
total, first success returned, last error re-raised.  The delay/backoff
schedule only affects timing, not the result, and is not modelled. -/
def retryRequest {E A : Type} (op : Nat → Except E A) (retries : Nat) : Except E A × Nat :=
  retryGo op 0 retries

/-- If attempts `a .. a+k-1` fail and attempt `a+k` succeeds (with
`k` within the allowed budget `r`), the loop stops at attempt `a+k`. -/
theorem retryGo_first_success {E A : Type} (op : Nat → Except E A) :
    ∀ (k : Nat) (a r : Nat) (v : A), k ≤ r →
      (∀ i, a ≤ i → i < a + k → ∃ e, op i = Except.error e) →
      op (a + k) = Except.ok v →
      retryGo op a r = (Except.ok v, a + k + 1) := by
  intro k
  induction k with
  | zero =>
    intro a r v _ _ hs
    cases r with
    | zero => simp only [retryGo]; rw [show a + 0 = a from rfl] at hs; rw [hs]
    | succ r' => simp only [retryGo]; rw [show a + 0 = a from rfl] at hs; rw [hs]
  | succ k ih =>
    intro a r v hk hfail hs
    cases r with
    | zero => omega
    | succ r' =>
      obtain ⟨e, he⟩ := hfail a (Nat.le_refl a) (by omega)
      simp only [retryGo, he]
      have := ih (a + 1) r' v (by omega)
        (fun i h1 h2 => hfail i (by omega) (by omega))
        (by rw [show a + 1 + k = a + (k + 1) by omega]; exact hs)
      rw [this]
      congr 1
      omega

/-- If every attempt `a .. a+r` fails, the loop performs them all and
returns the error of the final attempt `a + r`. -/
theorem retryGo_exhaust {E A : Type} (op : Nat → Except E A) :
    ∀ (r a : Nat), (∀ i, a ≤ i → i ≤ a + r → ∃ e, op i = Except.error e) →
      ∃ e, op (a + r) = Except.error e ∧ retryGo op a r = (Except.error e, a + r + 1) := by
  intro r
  induction r with
  | zero =>
    intro a hfail
    obtain ⟨e, he⟩ := hfail a (Nat.le_refl a) (by omega)
    exact ⟨e, by rw [show a + 0 = a from rfl]; exact he,
      by simp only [retryGo]; rw [show a + 0 = a from rfl, he]⟩
  | succ r' ih =>
    intro a hfail
    obtain ⟨e, he⟩ := hfail a (Nat.le_refl a) (by omega)
    obtain ⟨e', he', hgo⟩ := ih (a + 1) (fun i h1 h2 => hfail i (by omega) (by omega))
    refine ⟨e', by rw [show a + (r' + 1) = a + 1 + r' by omega]; exact he', ?_⟩
    simp only [retryGo, he]
    rw [hgo]
    congr 2
    omega

/-- The loop always invokes the operation at least once. -/
theorem retryGo_attempts_pos {E A : Type} (op : Nat → Except E A) :
    ∀ (r a : Nat), a + 1 ≤ (retryGo op a r).2 := by
  intro r
  induction r with
  | zero =>
    intro a
    simp only [retryGo]
    cases op a <;> simp
  | succ r' ih =>
    intro a
    simp only [retryGo]
    cases op a with
    | ok v => simp
    | error e => exact Nat.le_trans (by omega) (ih (a + 1))

/-- C1: the Retry Executor, given retry count `R`, invokes the wrapped
operation up to `R+1` times: the first successful invocation's result is
returned with no further invocations made (if attempts `0..k-1` fail and
attempt `k ≤ R` succeeds, the result is that success with exactly `k+1`
invocations), and if all `R+1` invocations fail, the last invocation's
error is raised after exactly `R+1` invocations. -/
theorem c1_retry_executor {E A : Type} (op : Nat → Except E A) (retries : Nat) :
    (∀ k v, k ≤ retries → (∀ i, i < k → ∃ e, op i = Except.error e) →
        op k = Except.ok v → retryRequest op retries = (Except.ok v, k + 1)) ∧
    ((∀ i, i ≤ retries → ∃ e, op i = Except.error e) →
        ∃ e, op retries = Except.error e ∧
          retryRequest op retries = (Except.error e, retries + 1)) := by
  constructor
  · intro k v hk hfail hs
    have := retryGo_first_success op k 0 retries v hk
      (fun i _ h2 => hfail i (by omega)) (by rw [Nat.zero_add]; exact hs)
    rw [retryRequest, this]
    congr 2
    omega
  · intro hfail
    obtain ⟨e, he, hgo⟩ := retryGo_exhaust op retries 0 (fun i _ h2 => hfail i (by omega))
    refine ⟨e, by rw [Nat.zero_add] at he; exact he, ?_⟩
    rw [retryRequest, hgo]
    congr 2
    omega

/-- An operation that fails on attempts 0 and 1 and succeeds from attempt 2
on (the spec's "fails twice then succeeds" scenario). -/
def failTwiceOp : Nat → Except String Nat :=
  fun i => if i < 2 then Except.error "boom" else Except.ok 7

/-- An operation that fails on every attempt. -/
def alwaysFailOp : Nat → Except String Nat :=
  fun _ => Except.error "down"

/-- C1 witness: with retries=3, fail-twice-then-succeed returns the success
after exactly 3 invocations; with retries=2, always-fail raises the error
after exactly 3 invocations. -/
theorem c1_retry_executor_witness :
    retryRequest failTwiceOp 3 = (Except.ok 7, 3) ∧
    retryRequest alwaysFailOp 2 = (Except.error "down", 3) := by
  constructor
  · exact (c1_retry_executor failTwiceOp 3).1 2 7 (by omega)
      (fun i hi => ⟨"boom", by simp [failTwiceOp]; omega⟩) (by simp [failTwiceOp])
  · obtain ⟨e, he, hr⟩ := (c1_retry_executor alwaysFailOp 2).2
      (fun i _ => ⟨"down", rfl⟩)
    have : e = "down" := by
      have h2 : Except.error (ε := String) (α := Nat) "down" = Except.error e := he
      cases h2
      rfl
    rw [this] at hr
    exact hr

/-! ## List helpers

`Array.prototype.slice(-n)` keeps the last `n` elements (all of them if
the array is shorter). -/

/-- The last `n` elements of a list (JS `slice(-n)`). -/
def takeLast {α : Type} (n : Nat) (l : List α) : List α := l.drop (l.length - n)

theorem takeLast_length {α : Type} (n : Nat) (l : List α) :
    (takeLast n l).length = min n l.length := by
  simp [takeLast]
  omega

/-- Dropping `a.length - n` elements from `a ++ b` never reaches `b`. -/
theorem drop_sub_append {α : Type} (n : Nat) (a b : List α) :
    (a ++ b).drop (a.length - n) = a.drop (a.length - n) ++ b := by
  rw [List.drop_append_eq_append_drop]
  have h : a.length - n - a.length = 0 := by omega
  rw [h, List.drop_zero]

/-- Truncating to the last `n` elements, appending, then truncating again
is the same as truncating the full concatenation once. -/
theorem takeLast_absorb {α : Type} (n : Nat) (a b : List α) :
    takeLast n (takeLast n a ++ b) = takeLast n (a ++ b) := by
  unfold takeLast
  rw [← drop_sub_append, List.drop_drop]
  congr 1
  simp
  omega

/-- When `b` already has at least `n` elements, the last `n` of `a ++ b`
lie entirely within `b`. -/
theorem takeLast_append_of_le {α : Type} (n : Nat) (a b : List α) (h : n ≤ b.length) :
    takeLast n (a ++ b) = takeLast n b := by
  unfold takeLast
  rw [List.drop_append_eq_append_drop]
  rw [List.drop_eq_nil_of_le (by simp; omega)]
  rw [List.nil_append]
  congr 1
  simp
  omega

/-! ## Chat-memory table operations

`SELECT memory FROM chat_memory WHERE chat_id = $1` and
`INSERT INTO chat_memory ... ON CONFLICT (chat_id) DO UPDATE SET memory = $2`
over the list of `chat_memory` rows. -/

/-- Read a session's memory; an absent row reads as the empty list
(the handler falls back to `[]`). -/
def memGet (rows : List MemRow) (cid : String) : List Msg :=
  match rows.find? (fun r => r.chat_id == cid) with
  | some r => r.memory
  | none => []

/-- Upsert a session's memory: replace the existing row if present,
else append a fresh row (`ON CONFLICT (chat_id) DO UPDATE`). -/
def memPut (rows : List MemRow) (cid : String) (m : List Msg) : List MemRow :=
  if rows.any (fun r => r.chat_id == cid) then
    rows.map (fun r => if r.chat_id == cid then { r with memory := m } else r)
  else rows ++ [⟨cid, m⟩]

def getMemory (db : DB) (cid : String) : List Msg := memGet db.memory cid

def putMemory (db : DB) (cid : String) (m : List Msg) : DB :=
  { db with memory := memPut db.memory cid m }

/-- A row whose key differs commutes past the upsert. -/
theorem memPut_cons_ne (r : MemRow) (rs : List MemRow) (cid : String) (m : List Msg)
    (h : (r.chat_id == cid) = false) :
    memPut (r :: rs) cid m = r :: memPut rs cid m := by
  unfold memPut
  by_cases hany : rs.any (fun x => x.chat_id == cid) = true
  · simp [h, hany]
    intro hc
    rw [hc] at h
    simp at h
  · simp only [Bool.not_eq_true] at hany
    simp [h, hany]

/-- Reading back the key just upserted yields the stored value. -/
theorem memGet_memPut (rows : List MemRow) (cid : String) (m : List Msg) :
    memGet (memPut rows cid m) cid = m := by
  induction rows with
  | nil => simp [memPut, memGet]
  | cons r rs ih =>
    by_cases hr : (r.chat_id == cid) = true
    · have heq : r.chat_id = cid := by simpa using hr
      unfold memPut
      simp only [List.any_cons, hr, Bool.true_or, if_pos]
      unfold memGet
      simp [List.find?_cons, heq]
    · have hr' : (r.chat_id == cid) = false := by simpa using hr
      rw [memPut_cons_ne r rs cid m hr']
      unfold memGet
      rw [List.find?_cons_of_neg _ (by simp [hr'])]
      exact ih

/-! ## Related-query normalization (`/api/query` lines 537-558 and
`generateAdditionalQueries` lines 636-656)

The JS shuffle `.sort(() => 0.5 - Math.random())` produces some
permutation of the template list; it is modelled as an explicit
`shuffled` parameter assumed to be a permutation of `defaultQueries`. -/

/-- The eight fallback suggestion templates, instantiated with the query. -/
def defaultQueries (qt : String) : List String :=
  ["What are the best practices related to " ++ qt ++ "?",
   "How does " ++ qt ++ " impact compliance requirements?",
   "What are common challenges with " ++ qt ++ "?",
   "What standards govern " ++ qt ++ "?",
   "How to implement " ++ qt ++ " effectively?",
   "What are the latest developments in " ++ qt ++ "?",
   "How to measure success in " ++ qt ++ "?",
   "What are the risks associated with " ++ qt ++ "?"]

/-- `generateAdditionalQueries(query, count)`: take `count` of the
shuffled templates, each wrapped as `{query, context: "Generated
suggestion"}`. -/
def generateAdditionalQueries (count : Nat) (shuffled : List String) : List JItem :=
  (shuffled.take count).map
    (fun t => JItem.obj [("query", t), ("context", "Generated suggestion")])

/-- The per-item normalization map: a bare string becomes
`{query: str, context: "Generated suggestion"}`; anything else is
returned unchanged. -/
def normalizeItem : JItem → JItem
  | JItem.str s => JItem.obj [("query", s), ("context", "Generated suggestion")]
  | JItem.obj f => JItem.obj f

/-- Whether an item is an object with exactly the two fields
`query` and `context`, in that order. -/
def hasQCShape : JItem → Bool
  | JItem.obj [(k1, _), (k2, _)] => k1 == "query" && k2 == "context"
  | _ => false

/-- The `/api/query` related-queries pipeline: coerce the upstream field
to a list (empty if absent/non-array), pad to five entries with
fallback-generated suggestions when short, then map the per-item
normalization over the combined list. -/
def normalizeRelated (upstream : Option (List JItem)) (shuffled : List String) : List JItem :=
  let rq := match upstream with
    | some l => l
    | none => []
  let rq2 := if rq.length < 5 then rq ++ generateAdditionalQueries (5 - rq.length) shuffled
    else rq
  rq2.map normalizeItem

/-- C2 (amended): after a successful upstream response the related-queries
field is coerced to a list (empty if absent or not an array); if it has
fewer than 5 entries it is padded to exactly 5 by appending
fallback-generated suggestions; the original entries occupy the front
positions in order; every appended fallback entry has the `{query,
context}` shape; bare strings are replaced by `{query: str, context:
"Generated suggestion"}` while non-string entries pass through unchanged
(their shape is not enforced). -/
theorem c2_related_query_normalization (qt : String) (orig : List JItem)
    (shuffled : List String) (hp : shuffled.Perm (defaultQueries qt))
    (hlen : orig.length < 5) :
    (normalizeRelated (some orig) shuffled).length = 5 ∧
    (normalizeRelated (some orig) shuffled).take orig.length = orig.map normalizeItem ∧
    (∀ it ∈ (normalizeRelated (some orig) shuffled).drop orig.length,
        hasQCShape it = true) ∧
    (∀ s, normalizeItem (JItem.str s)
        = JItem.obj [("query", s), ("context", "Generated suggestion")]) ∧
    (∀ f, normalizeItem (JItem.obj f) = JItem.obj f) ∧
    (normalizeRelated none shuffled).length = 5 := by
  have hsl : shuffled.length = 8 := by
    rw [List.Perm.length_eq hp]
    simp [defaultQueries]
  have hgen : (generateAdditionalQueries (5 - orig.length) shuffled).length
      = 5 - orig.length := by
    simp [generateAdditionalQueries, hsl]
    omega
  have hnorm : normalizeRelated (some orig) shuffled
      = (orig ++ generateAdditionalQueries (5 - orig.length) shuffled).map normalizeItem := by
    simp [normalizeRelated, hlen]
  refine ⟨?_, ?_, ?_, fun s => rfl, fun f => rfl, ?_⟩
  · rw [hnorm]
    simp [hgen]
    omega
  · rw [hnorm, List.map_append, List.take_left' (by simp)]
  · rw [hnorm, List.map_append, List.drop_left' (by simp)]
    intro it hit
    simp only [generateAdditionalQueries, List.map_map, List.mem_map] at hit
    obtain ⟨t, _, rfl⟩ := hit
    rfl
  · simp [normalizeRelated, generateAdditionalQueries, hsl]

/-- C2 counterexample: an upstream entry that is an object without the
`{query, context}` fields passes through the normalization unchanged, so
not every entry of the final padded list has the `{query, context}`
shape. -/
theorem c2_counterexample :
    (normalizeRelated (some [JItem.obj [("weird", "x")]])
        (defaultQueries "q")).all hasQCShape = false := by
  decide

/-- A concrete upstream list with two entries: one bare string, one
well-shaped object. -/
def origW : List JItem :=
  [JItem.str "s1", JItem.obj [("query", "s2"), ("context", "ctx")]]

/-- C2 witness: two upstream entries are padded to five, the originals
kept in front. -/
theorem c2_related_query_normalization_witness :
    (normalizeRelated (some origW) (defaultQueries "q")).length = 5 ∧
    (normalizeRelated (some origW) (defaultQueries "q")).take 2
      = origW.map normalizeItem := by
  have h := c2_related_query_normalization "q" origW (defaultQueries "q")
    (List.Perm.refl _) (by decide)
  exact ⟨h.1, h.2.1⟩

/-! ## Conversation Store operations (server.js lines 168-201, 252-306,
565-575, 884-924)

Each handler first runs the ownership check
`SELECT chat_id FROM chat_sessions WHERE chat_id = $1 AND user_id = $2`
and answers 403 when it returns no row.  The later `rowCount === 0`
checks (404) mirror the code even though they are unreachable after a
successful ownership check. -/

/-- GET `/api/chat-history/:chatId`: ownership check, then the session's
history rows in insertion (creation-time) order. -/
def getHistory (db : DB) (cid uid : String) : Resp × List HEntry :=
  if db.sessions.any (fun s => s.chat_id == cid && s.user_id == uid) then
    (Resp.ok, db.history.filter (fun h => h.chat_id == cid))
  else (Resp.accessDenied, [])

/-- POST `/api/update-chat-favorite`: ownership check, then
`UPDATE chat_sessions SET favorite = $1 WHERE chat_id = $2 AND user_id = $3`,
then the unreachable `rowCount === 0` → 404 branch. -/
def setFavorite (db : DB) (cid uid : String) (flag : Bool) : DB × Resp :=
  if db.sessions.any (fun s => s.chat_id == cid && s.user_id == uid) then
    if (db.sessions.filter (fun s => s.chat_id == cid && s.user_id == uid)).length == 0 then
      (db, Resp.notFound)
    else
      let upd := db.sessions.map (fun s =>
        if s.chat_id == cid && s.user_id == uid then { s with favorite := flag } else s)
      ({ db with sessions := upd }, Resp.ok)
  else (db, Resp.accessDenied)

/-- DELETE `/api/chat`: inside a transaction, ownership check (403 with
rollback on failure), then delete the memory rows, the history rows and
the session row; the `rowCount === 0` → 404 rollback branch mirrors the
code.  Rollback is modelled by returning the pre-transaction state. -/
def deleteChat (db : DB) (cid uid : String) : DB × Resp :=
  if db.sessions.any (fun s => s.chat_id == cid && s.user_id == uid) then
    if (db.sessions.filter (fun s => s.chat_id == cid && s.user_id == uid)).length == 0 then
      (db, Resp.notFound)
    else
      ({ db with
          memory := db.memory.filter (fun r => !(r.chat_id == cid)),
          history := db.history.filter (fun h => !(h.chat_id == cid)),
          sessions := db.sessions.filter
            (fun s => !(s.chat_id == cid && s.user_id == uid)) }, Resp.ok)
  else (db, Resp.accessDenied)

/-- The idempotent session insert performed by `/api/query`:
`INSERT INTO chat_sessions (chat_id, name, user_id) VALUES ($1,$2,$3)
ON CONFLICT (chat_id) DO NOTHING` (the favorite column defaults to
false). -/
def ensureSession (db : DB) (cid name uid : String) : DB :=
  if db.sessions.any (fun s => s.chat_id == cid) then db
  else { db with sessions := db.sessions ++ [⟨cid, name, uid, false⟩] }

/-! ## Product color assignment (POST `/api/products`, lines 351-371) -/

/-- The fixed palette, in order. -/
def palette : List String := ["red", "purple", "orange", "green", "blue", "white"]

/-- The colors already held by a user's products. -/
def usedColors (db : DB) (uid : String) : List String :=
  (db.products.filter (fun p => p.user_id == uid)).map (fun p => p.color)

/-- `colors.find((c) => !usedColors.includes(c)) || colors[0]`; the first
palette entry is `"red"`. -/
def pickColor (used : List String) : String :=
  match palette.find? (fun c => !(used.contains c)) with
  | some c => c
  | none => "red"

/-- POST `/api/products`: pick the color from the user's existing
products, then insert the new row.  (The best-effort related-query
generation call afterwards does not affect the stored product.) -/
def createProduct (db : DB) (title info uid : String) : DB × String :=
  let c := pickColor (usedColors db uid)
  ({ db with products := db.products ++ [⟨title, info, c, uid⟩] }, c)

/-! ## Query Orchestrator (POST `/api/query`, lines 479-633)

The upstream AI service is a function from the attempt index to an
`Except` outcome; the fresh `crypto.randomUUID()` value, the timestamp
used in the default chat name, and the fallback-template shuffle are
explicit parameters.  The request's `query` field is a plain string: a
missing body field and an empty string are indistinguishable to the
handler (both are falsy in JS, and the handler never tests the field). -/

/-- A successful upstream `/api/query` payload (only the fields the
handler inspects). -/
structure AIData where
  chat_name : Option String
  answer : String
  related_queries : Option (List JItem)
deriving DecidableEq, Repr

/-- The incoming request body fields the handler uses. -/
structure QueryReq where
  query : String
  chat_id : Option String
  userId : Option String
deriving DecidableEq, Repr

/-- The observable outcome of one `/api/query` invocation: the new
database state, the HTTP outcome, the number of upstream invocations
performed, and the memory payload forwarded upstream (`none` when the
upstream call was never issued). -/
structure QOut where
  db : DB
  resp : Resp
  attempts : Nat
  sentMemory : Option (List Msg)
deriving DecidableEq, Repr

/-- The POST `/api/query` handler.  Control flow as in the source:
validate `userId` (400); resolve the conversation id; load prior memory
when a `chat_id` was supplied; call upstream through `retryRequest`
with 5 retries (error → 500, nothing persisted); normalize the
related-queries field; idempotently ensure the session row; append one
history entry; upsert the truncated memory; respond 200. -/
def handleQuery (db : DB) (req : QueryReq) (op : Nat → Except String AIData)
    (freshId nowIso : String) (shuffled : List String) : QOut :=
  match req.userId with
  | none => ⟨db, Resp.badRequest, 0, none⟩
  | some uid =>
    let finalChatId := match req.chat_id with
      | some c => c
      | none => freshId
    let chatMemory := match req.chat_id with
      | some c => getMemory db c
      | none => []
    match retryRequest op 5 with
    | (Except.error _, n) => ⟨db, Resp.serverError, n, some chatMemory⟩
    | (Except.ok data, n) =>
      let related := normalizeRelated data.related_queries shuffled
      let name := match data.chat_name with
        | some nm => nm
        | none => "Chat " ++ nowIso
      let db1 := ensureSession db finalChatId name uid
      let db2 := { db1 with history := db1.history ++
        [⟨finalChatId, req.query, data.answer, uid, related⟩] }
      let newMem := takeLast 20 (chatMemory ++
        [⟨"user", req.query⟩, ⟨"assistant", data.answer⟩])
      let db3 := putMemory db2 finalChatId newMem
      ⟨db3, Resp.ok, n, some chatMemory⟩

/-- The empty database. -/
def emptyDB : DB := ⟨[], [], [], []⟩

/-- C5 (amended): for getHistory, setFavorite and deleteSession, whenever
no session row matches the given id and requesting user — whether the
session exists but is owned by a different user, or does not exist at
all — the operation fails with AccessDenied and leaves the database
unmodified; a missing session therefore yields AccessDenied rather than
NotFound (the NotFound branches sit after the ownership check and are
unreachable). -/
theorem c5_ownership_enforcement (db : DB) (cid uid : String) (flag : Bool)
    (h : db.sessions.any (fun s => s.chat_id == cid && s.user_id == uid) = false) :
    getHistory db cid uid = (Resp.accessDenied, []) ∧
    setFavorite db cid uid flag = (db, Resp.accessDenied) ∧
    deleteChat db cid uid = (db, Resp.accessDenied) := by
  refine ⟨?_, ?_, ?_⟩ <;> simp [getHistory, setFavorite, deleteChat, h]

/-- C5 counterexample: on a database where the target session row does not
exist at all, all three operations fail with AccessDenied, not with the
NotFound condition the claim requires. -/
theorem c5_counterexample :
    (getHistory emptyDB "c1" "u1").1 = Resp.accessDenied ∧
    (setFavorite emptyDB "c1" "u1" true).2 = Resp.accessDenied ∧
    (deleteChat emptyDB "c1" "u1").2 = Resp.accessDenied ∧
    Resp.accessDenied ≠ Resp.notFound := by
  decide

/-- A database whose only session belongs to user `u2`. -/
def dbOther : DB := ⟨[⟨"c1", "chat one", "u2", false⟩], [], [], []⟩

/-- C5 witness: user `u1` is denied on the session owned by `u2` and the
database is unchanged. -/
theorem c5_ownership_enforcement_witness :
    getHistory dbOther "c1" "u1" = (Resp.accessDenied, []) ∧
    setFavorite dbOther "c1" "u1" true = (dbOther, Resp.accessDenied) ∧
    deleteChat dbOther "c1" "u1" = (dbOther, Resp.accessDenied) :=
  c5_ownership_enforcement dbOther "c1" "u1" true (by decide)

/-- C4 (amended): session deletion is all-or-nothing: when a session row
matches the id and requesting user, the delete succeeds and afterwards no
memory row, history row, or session row for that chat id remains (the
chat_id primary-key hypothesis rules out a second session row with the
same id); a subsequent history fetch for that id then fails with
AccessDenied — not with an empty result or NotFound — because the
ownership check no longer finds the session; when no session row matches
the id and user, nothing is deleted and AccessDenied is raised. -/
theorem c4_cascading_delete (db : DB) (cid uid : String)
    (hpk : ∀ s1 ∈ db.sessions, ∀ s2 ∈ db.sessions, s1.chat_id = s2.chat_id → s1 = s2) :
    (db.sessions.any (fun s => s.chat_id == cid && s.user_id == uid) = true →
      (deleteChat db cid uid).2 = Resp.ok ∧
      (∀ r ∈ (deleteChat db cid uid).1.memory, r.chat_id ≠ cid) ∧
      (∀ h ∈ (deleteChat db cid uid).1.history, h.chat_id ≠ cid) ∧
      (∀ s ∈ (deleteChat db cid uid).1.sessions, s.chat_id ≠ cid) ∧
      (getHistory (deleteChat db cid uid).1 cid uid).1 = Resp.accessDenied) ∧
    (db.sessions.any (fun s => s.chat_id == cid && s.user_id == uid) = false →
      deleteChat db cid uid = (db, Resp.accessDenied)) := by
  constructor
  · intro hown
    obtain ⟨s0, hs0mem, hs0p⟩ := List.any_eq_true.mp hown
    have hs0 : s0.chat_id = cid ∧ s0.user_id = uid := by simpa using hs0p
    have hs0f : s0 ∈ db.sessions.filter (fun s => s.chat_id == cid && s.user_id == uid) :=
      List.mem_filter.mpr ⟨hs0mem, hs0p⟩
    have hlen : ((db.sessions.filter
        (fun s => s.chat_id == cid && s.user_id == uid)).length == 0) = false := by
      simp only [beq_eq_false_iff_ne, ne_eq, List.length_eq_zero]
      intro hnil
      rw [hnil] at hs0f
      exact absurd hs0f (List.not_mem_nil s0)
    have hdel : deleteChat db cid uid = ({ db with
        memory := db.memory.filter (fun r => !(r.chat_id == cid)),
        history := db.history.filter (fun h => !(h.chat_id == cid)),
        sessions := db.sessions.filter
          (fun s => !(s.chat_id == cid && s.user_id == uid)) }, Resp.ok) := by
      simp only [deleteChat, hown, if_true, hlen, Bool.false_eq_true, if_false]
    rw [hdel]
    refine ⟨rfl, ?_, ?_, ?_, ?_⟩
    · intro r hr
      have := (List.mem_filter.mp hr).2
      simpa using this
    · intro h hh
      have := (List.mem_filter.mp hh).2
      simpa using this
    · intro s hs
      have hsmem := (List.mem_filter.mp hs).1
      have hskeep := (List.mem_filter.mp hs).2
      intro hc
      have : s = s0 := hpk s hsmem s0 hs0mem (by rw [hc, hs0.1])
      rw [this] at hskeep
      simp [hs0.1, hs0.2] at hskeep
    · have hnone : (db.sessions.filter
          (fun s => !(s.chat_id == cid && s.user_id == uid))).any
          (fun s => s.chat_id == cid && s.user_id == uid) = false := by
        rw [List.any_eq_false]
        intro s hs
        have h2 := (List.mem_filter.mp hs).2
        simp only [Bool.not_eq_eq_eq_not, Bool.not_true] at h2
        simp [h2]
      simp only [getHistory, hnone, Bool.false_eq_true, if_false]
  · intro hnone
    simp [deleteChat, hnone]

/-- A database holding one session of user `u1` together with one history
row and one memory row for it. -/
def dbFull : DB :=
  ⟨[⟨"c1", "chat one", "u1", false⟩],
   [⟨"c1", "q0", "a0", "u1", []⟩],
   [⟨"c1", [⟨"user", "q0"⟩, ⟨"assistant", "a0"⟩]⟩],
   []⟩

/-- C4 counterexample: after a successful cascading delete, the follow-up
history fetch for the deleted id returns neither an empty 200 result nor
NotFound — it fails with AccessDenied. -/
theorem c4_counterexample :
    ¬ ((getHistory (deleteChat dbFull "c1" "u1").1 "c1" "u1").1 = Resp.ok ∨
       (getHistory (deleteChat dbFull "c1" "u1").1 "c1" "u1").1 = Resp.notFound) := by
  decide

/-- C4 witness: deleting the session of `dbFull` removes its memory,
history and session rows, and the follow-up fetch is denied. -/
theorem c4_cascading_delete_witness :
    (deleteChat dbFull "c1" "u1").2 = Resp.ok ∧
    (deleteChat dbFull "c1" "u1").1.memory = [] ∧
    (deleteChat dbFull "c1" "u1").1.history = [] ∧
    (deleteChat dbFull "c1" "u1").1.sessions = [] ∧
    (getHistory (deleteChat dbFull "c1" "u1").1 "c1" "u1").1 = Resp.accessDenied := by
  have h := (c4_cascading_delete dbFull "c1" "u1" (by decide)).1 (by decide)
  exact ⟨h.1, by decide, by decide, by decide, h.2.2.2.2⟩

/-- C8: the session insert of the `/api/query` flow is idempotent with
first-writer-wins naming: starting from a database without the session
id, inserting twice with the same id and (possibly) different names and
users leaves the database of the first insert unchanged, and exactly one
session row with that id exists, bearing the first name (and user, with
the favorite flag defaulted to false). -/
theorem c8_idempotent_session_creation (db : DB) (cid n1 n2 u1 u2 : String)
    (h : db.sessions.any (fun s => s.chat_id == cid) = false) :
    ensureSession (ensureSession db cid n1 u1) cid n2 u2 = ensureSession db cid n1 u1 ∧
    (ensureSession (ensureSession db cid n1 u1) cid n2 u2).sessions.filter
        (fun s => s.chat_id == cid) = [⟨cid, n1, u1, false⟩] := by
  have h1 : ensureSession db cid n1 u1
      = { db with sessions := db.sessions ++ [⟨cid, n1, u1, false⟩] } := by
    simp [ensureSession, h]
  have h2 : ensureSession { db with sessions := db.sessions ++ [⟨cid, n1, u1, false⟩] } cid n2 u2
      = { db with sessions := db.sessions ++ [⟨cid, n1, u1, false⟩] } := by
    simp [ensureSession]
  have hfilter : (db.sessions ++ [(⟨cid, n1, u1, false⟩ : Session)]).filter
      (fun s => s.chat_id == cid) = [⟨cid, n1, u1, false⟩] := by
    rw [List.filter_append]
    have hnil : db.sessions.filter (fun s => s.chat_id == cid) = [] := by
      rw [List.filter_eq_nil_iff]
      intro s hs
      have := List.any_eq_false.mp h s hs
      simpa using this
    rw [hnil]
    simp
  constructor
  · rw [h1, h2, ← h1]
  · rw [h1, h2]
    exact hfilter

/-- C8 witness: two inserts with the same id and different names on the
empty database leave exactly one row, named by the first insert. -/
theorem c8_idempotent_session_creation_witness :
    ensureSession (ensureSession emptyDB "c1" "first" "u1") "c1" "second" "u1"
      = ensureSession emptyDB "c1" "first" "u1" ∧
    (ensureSession (ensureSession emptyDB "c1" "first" "u1") "c1" "second" "u1").sessions.filter
        (fun s => s.chat_id == "c1") = [⟨"c1", "first", "u1", false⟩] :=
  c8_idempotent_session_creation emptyDB "c1" "first" "second" "u1" "u1" (by decide)

/-- `List.find?` returns the element at the first index satisfying the
predicate. -/
theorem find?_first {α : Type} (p : α → Bool) :
    ∀ (l : List α) (i : Nat) (hi : i < l.length),
      (∀ j, (hj : j < i) → p (l.get ⟨j, by omega⟩) = false) →
      p (l.get ⟨i, hi⟩) = true → l.find? p = some (l.get ⟨i, hi⟩) := by
  intro l
  induction l with
  | nil => intro i hi; simp at hi
  | cons a t ih =>
    intro i hi hbefore hp
    cases i with
    | zero =>
      simp only [List.get] at hp
      rw [List.find?_cons_of_pos _ hp]
      rfl
    | succ j =>
      have ha : p a = false := hbefore 0 (by omega)
      rw [List.find?_cons_of_neg _ (by simp [ha])]
      exact ih j (by simpa using hi)
        (fun k hk => hbefore (k + 1) (by omega)) hp

/-- C9: on product creation, the new product is assigned the first color
of the palette [red, purple, orange, green, blue, white] that is not
among the colors of the user's existing products; when the user's
products already hold every palette color, the first palette color "red"
is assigned; the product row is appended with the assigned color. -/
theorem c9_product_color_assignment (db : DB) (title info uid : String) :
    (∀ i, (hi : i < palette.length) →
      (usedColors db uid).contains (palette.get ⟨i, hi⟩) = false →
      (∀ j, (hj : j < i) → (usedColors db uid).contains (palette.get ⟨j, by omega⟩) = true) →
      (createProduct db title info uid).2 = palette.get ⟨i, hi⟩) ∧
    ((∀ c ∈ palette, (usedColors db uid).contains c = true) →
      (createProduct db title info uid).2 = "red") ∧
    (createProduct db title info uid).1.products
      = db.products ++ [⟨title, info, (createProduct db title info uid).2, uid⟩] := by
  refine ⟨?_, ?_, rfl⟩
  · intro i hi hunused hbefore
    have hfind : palette.find? (fun c => !((usedColors db uid).contains c))
        = some (palette.get ⟨i, hi⟩) := by
      apply find?_first _ palette i hi
      · intro j hj
        simpa using hbefore j hj
      · simpa using hunused
    show pickColor (usedColors db uid) = _
    unfold pickColor
    rw [hfind]
  · intro hall
    have hfind : palette.find? (fun c => !((usedColors db uid).contains c)) = none := by
      rw [List.find?_eq_none]
      intro c hc
      simpa using hall c hc
    show pickColor (usedColors db uid) = _
    unfold pickColor
    rw [hfind]

/-- A database whose products for user `u1` hold the colors red and blue. -/
def dbProducts : DB :=
  ⟨[], [], [], [⟨"t1", "i1", "red", "u1"⟩, ⟨"t2", "i2", "blue", "u1"⟩]⟩

/-- C9 witness: with {red, blue} in use, the next product gets "purple",
the first unused palette color. -/
theorem c9_product_color_assignment_witness :
    (createProduct dbProducts "t3" "i3" "u1").2 = "purple" := by
  have h := (c9_product_color_assignment dbProducts "t3" "i3" "u1").1 1 (by decide)
    (by decide)
    (fun j hj => by
      have hj0 : j = 0 := by omega
      subst hj0
      exact (by decide : (usedColors dbProducts "u1").contains "red" = true))
  simpa using h

/-- A first-attempt success short-circuits the whole retry loop. -/
theorem retryRequest_ok {E A : Type} (op : Nat → Except E A) (r : Nat) (v : A)
    (h : op 0 = Except.ok v) : retryRequest op r = (Except.ok v, 1) := by
  cases r with
  | zero => simp [retryRequest, retryGo, h]
  | succ r' => simp [retryRequest, retryGo, h]

theorem ensureSession_memory (db : DB) (cid name uid : String) :
    (ensureSession db cid name uid).memory = db.memory := by
  unfold ensureSession
  split <;> rfl

theorem ensureSession_history (db : DB) (cid name uid : String) :
    (ensureSession db cid name uid).history = db.history := by
  unfold ensureSession
  split <;> rfl

/-- C6 (amended): the `/api/query` handler validates only the user
identifier: a request without one fails with BadRequest before any
upstream invocation or persistence; the query string itself is never
validated, and any request carrying a user identifier reaches the
upstream call (at least one invocation), whatever its query field. -/
theorem c6_validation (db : DB) (req : QueryReq) (op : Nat → Except String AIData)
    (freshId nowIso : String) (shuffled : List String) :
    (req.userId = none →
      handleQuery db req op freshId nowIso shuffled = ⟨db, Resp.badRequest, 0, none⟩) ∧
    (∀ uid, req.userId = some uid →
      1 ≤ (handleQuery db req op freshId nowIso shuffled).attempts) := by
  constructor
  · intro h
    simp [handleQuery, h]
  · intro uid h
    have hpos : 1 ≤ (retryRequest op 5).2 := retryGo_attempts_pos op 5 0
    rcases hq : retryRequest op 5 with ⟨r, n⟩
    rw [hq] at hpos
    cases r with
    | error e => simp [handleQuery, h, hq]; exact hpos
    | ok data => simp [handleQuery, h, hq]; exact hpos

/-- The upstream payload used by concrete runs: no chat name, answer
"ans", no related queries. -/
def dataA : AIData := ⟨none, "ans", none⟩

/-- An upstream operation that succeeds immediately with `dataA`. -/
def okOp : Nat → Except String AIData := fun _ => Except.ok dataA

/-- C6 counterexample: a request whose query string is empty (in JS an
absent body field and `""` are equally falsy and equally unchecked) but
which carries a user id is not rejected with BadRequest: the upstream
call is made (one invocation) and persistence occurs (the database
changes). -/
theorem c6_counterexample :
    (handleQuery emptyDB ⟨"", none, some "u1"⟩ okOp "f" "t" (defaultQueries "")).resp
        ≠ Resp.badRequest ∧
    (handleQuery emptyDB ⟨"", none, some "u1"⟩ okOp "f" "t" (defaultQueries "")).attempts = 1 ∧
    (handleQuery emptyDB ⟨"", none, some "u1"⟩ okOp "f" "t" (defaultQueries "")).db ≠ emptyDB := by
  decide

/-- C6 witness: a request without a user id is rejected untouched; one
with a user id reaches the upstream call. -/
theorem c6_validation_witness :
    handleQuery emptyDB ⟨"q", none, none⟩ okOp "f" "t" []
      = ⟨emptyDB, Resp.badRequest, 0, none⟩ ∧
    1 ≤ (handleQuery emptyDB ⟨"q", none, some "u1"⟩ okOp "f" "t" []).attempts := by
  constructor
  · exact (c6_validation emptyDB ⟨"q", none, none⟩ okOp "f" "t" []).1 rfl
  · exact (c6_validation emptyDB ⟨"q", none, some "u1"⟩ okOp "f" "t" []).2 "u1" rfl

/-- C7: when the upstream AI call fails on every attempt the Retry
Executor performs (all 6 = retries+1 invocations for the handler's
retries=5), the whole `/api/query` request fails with the 500-level
upstream-failure response and the database is returned exactly as it
was: no session row, history entry, or memory row is created or
updated. -/
theorem c7_no_partial_persistence (db : DB) (req : QueryReq) (uid : String)
    (op : Nat → Except String AIData) (freshId nowIso : String) (shuffled : List String)
    (hu : req.userId = some uid)
    (hfail : ∀ i, i ≤ 5 → ∃ e, op i = Except.error e) :
    (handleQuery db req op freshId nowIso shuffled).db = db ∧
    (handleQuery db req op freshId nowIso shuffled).resp = Resp.serverError ∧
    (handleQuery db req op freshId nowIso shuffled).attempts = 6 := by
  obtain ⟨e, he, hr⟩ := retryGo_exhaust op 5 0 (fun i h1 h2 => hfail i (by omega))
  have hq : retryRequest op 5 = (Except.error e, 6) := by
    rw [retryRequest, hr]
  simp [handleQuery, hu, hq]

/-- An upstream operation that fails on every attempt. -/
def failOpA : Nat → Except String AIData := fun _ => Except.error "unreachable"

/-- C7 witness: with an always-failing upstream, the handler returns the
500-level failure after 6 invocations and leaves the database
untouched. -/
theorem c7_no_partial_persistence_witness :
    (handleQuery dbFull ⟨"q", some "c1", some "u1"⟩ failOpA "f" "t" []).db = dbFull ∧
    (handleQuery dbFull ⟨"q", some "c1", some "u1"⟩ failOpA "f" "t" []).resp
      = Resp.serverError ∧
    (handleQuery dbFull ⟨"q", some "c1", some "u1"⟩ failOpA "f" "t" []).attempts = 6 :=
  c7_no_partial_persistence dbFull ⟨"q", some "c1", some "u1"⟩ "u1" failOpA "f" "t" []
    rfl (fun _ _ => ⟨"unreachable", rfl⟩)

/-- C10: the `/api/query` handler performs no ownership check on the
client-supplied chat id: even when the session belongs to a different
user than the requester, the handler never answers AccessDenied
(whatever the upstream does), and on upstream success it forwards that
session's stored memory upstream, appends the history entry to that
session, and overwrites that session's memory row with the truncated
updated memory. -/
theorem c10_query_skips_ownership (db : DB) (cid uid q freshId nowIso : String)
    (shuffled : List String) (sess : Session) (data : AIData)
    (op : Nat → Except String AIData)
    (_hmem : sess ∈ db.sessions) (_hcid : sess.chat_id = cid) (_hown : sess.user_id ≠ uid)
    (hok : op 0 = Except.ok data) :
    (∀ op2 : Nat → Except String AIData,
      (handleQuery db ⟨q, some cid, some uid⟩ op2 freshId nowIso shuffled).resp
        ≠ Resp.accessDenied) ∧
    (handleQuery db ⟨q, some cid, some uid⟩ op freshId nowIso shuffled).sentMemory
      = some (getMemory db cid) ∧
    (handleQuery db ⟨q, some cid, some uid⟩ op freshId nowIso shuffled).db.history
      = db.history ++ [⟨cid, q, data.answer, uid, normalizeRelated data.related_queries shuffled⟩] ∧
    getMemory (handleQuery db ⟨q, some cid, some uid⟩ op freshId nowIso shuffled).db cid
      = takeLast 20 (getMemory db cid ++ [⟨"user", q⟩, ⟨"assistant", data.answer⟩]) := by
  have hq := retryRequest_ok op 5 data hok
  refine ⟨?_, ?_, ?_, ?_⟩
  · intro op2
    rcases hq2 : retryRequest op2 5 with ⟨r, n⟩
    cases r with
    | error e => simp [handleQuery, hq2]
    | ok d2 => simp [handleQuery, hq2]
  · simp [handleQuery, hq]
  · simp [handleQuery, hq, ensureSession_history, putMemory, memPut]
  · simp only [handleQuery, hq]
    show memGet (memPut _ cid _) cid = _
    rw [memGet_memPut]

/-- A database whose only session belongs to `u2`, with a stored memory
row for it. -/
def dbOwned : DB :=
  ⟨[⟨"c1", "chat one", "u2", false⟩], [], [⟨"c1", [⟨"user", "old"⟩]⟩], []⟩

/-- C10 witness: user `u1` querying against `u2`'s session `c1` is not
denied; the stored memory is forwarded, the history entry lands on `c1`,
and `c1`'s memory row is overwritten. -/
theorem c10_query_skips_ownership_witness :
    (handleQuery dbOwned ⟨"q1", some "c1", some "u1"⟩ okOp "f" "t"
        (defaultQueries "q1")).resp ≠ Resp.accessDenied ∧
    (handleQuery dbOwned ⟨"q1", some "c1", some "u1"⟩ okOp "f" "t"
        (defaultQueries "q1")).sentMemory = some (getMemory dbOwned "c1") ∧
    getMemory (handleQuery dbOwned ⟨"q1", some "c1", some "u1"⟩ okOp "f" "t"
        (defaultQueries "q1")).db "c1"
      = takeLast 20 (getMemory dbOwned "c1" ++ [⟨"user", "q1"⟩, ⟨"assistant", "ans"⟩]) := by
  have h := c10_query_skips_ownership dbOwned "c1" "u1" "q1" "f" "t" (defaultQueries "q1")
    ⟨"c1", "chat one", "u2", false⟩ dataA okOp (by decide) rfl (by decide) rfl
  exact ⟨h.1 okOp, h.2.1, h.2.2.2⟩

/-! ## The memory bound over repeated exchanges (C3) -/

/-- The two role-tagged messages one query/answer exchange appends to the
memory: the exchange is a pair of the query text and the upstream payload
whose `answer` field is stored. -/
def exchangeMsgs (e : String × AIData) : List Msg :=
  [⟨"user", e.1⟩, ⟨"assistant", e.2.answer⟩]

/-- All messages of a list of exchanges, in order. -/
def msgsOf : List (String × AIData) → List Msg
  | [] => []
  | e :: rest => exchangeMsgs e ++ msgsOf rest

/-- Run one `/api/query` request per exchange against the same session id
(the client supplies the session id each time), the upstream succeeding
immediately with the exchange's payload. -/
def runExchanges (db : DB) (cid uid freshId nowIso : String) (shuffled : List String)
    (exs : List (String × AIData)) : DB :=
  exs.foldl (fun d e =>
    (handleQuery d ⟨e.1, some cid, some uid⟩ (fun _ => Except.ok e.2)
      freshId nowIso shuffled).db) db

/-- One successful exchange replaces the session's stored memory by the
loaded memory extended with the user/assistant pair, truncated to the
last 20 entries. -/
theorem handleQuery_memory_step (db : DB) (cid uid q freshId nowIso : String)
    (shuffled : List String) (data : AIData) :
    getMemory (handleQuery db ⟨q, some cid, some uid⟩ (fun _ => Except.ok data)
        freshId nowIso shuffled).db cid
      = takeLast 20 (getMemory db cid ++ [⟨"user", q⟩, ⟨"assistant", data.answer⟩]) := by
  have hq := retryRequest_ok (E := String) (fun _ => Except.ok data) 5 data rfl
  simp only [handleQuery, hq]
  show memGet (memPut _ cid _) cid = _
  rw [memGet_memPut]

theorem msgsOf_length (exs : List (String × AIData)) :
    (msgsOf exs).length = 2 * exs.length := by
  induction exs with
  | nil => rfl
  | cons e rest ih =>
    simp [msgsOf, exchangeMsgs, ih]
    omega

theorem msgsOf_drop (exs : List (String × AIData)) :
    ∀ k, msgsOf (exs.drop k) = (msgsOf exs).drop (2 * k) := by
  induction exs with
  | nil => intro k; simp [msgsOf]
  | cons e rest ih =>
    intro k
    cases k with
    | zero => simp
    | succ k' =>
      rw [List.drop_succ_cons, ih k']
      have h2 : 2 * (k' + 1) = 2 * k' + 1 + 1 := by omega
      rw [h2]
      simp [msgsOf, exchangeMsgs]

/-- Folding the per-exchange memory update over a non-empty list of
exchanges yields the last 20 of the initial memory followed by all the
exchange messages. -/
theorem runExchanges_memory (cid uid freshId nowIso : String) (shuffled : List String) :
    ∀ (exs : List (String × AIData)) (db : DB), 1 ≤ exs.length →
      getMemory (runExchanges db cid uid freshId nowIso shuffled exs) cid
        = takeLast 20 (getMemory db cid ++ msgsOf exs) := by
  intro exs
  induction exs with
  | nil =>
    intro db h
    simp at h
  | cons e rest ih =>
    intro db _
    have hstep : runExchanges db cid uid freshId nowIso shuffled (e :: rest)
        = runExchanges (handleQuery db ⟨e.1, some cid, some uid⟩
            (fun _ => Except.ok e.2) freshId nowIso shuffled).db
            cid uid freshId nowIso shuffled rest := by
      simp [runExchanges]
    rw [hstep]
    cases rest with
    | nil =>
      show getMemory (handleQuery db ⟨e.1, some cid, some uid⟩
          (fun _ => Except.ok e.2) freshId nowIso shuffled).db cid = _
      rw [handleQuery_memory_step]
      simp [msgsOf, exchangeMsgs]
    | cons e2 rest2 =>
      rw [ih _ (by simp), handleQuery_memory_step, takeLast_absorb,
        List.append_assoc]
      rfl

/-- C3: each completed exchange stores (by upsert on the session id) the
loaded memory plus one user-role and one assistant-role message,
truncated to the most recent 20 entries; consequently after more than 10
exchanges on one session the stored memory is exactly the messages of
the most recent 10 exchanges — 20 entries. -/
theorem c3_memory_bound (db : DB) (cid uid freshId nowIso : String)
    (shuffled : List String) (exs : List (String × AIData))
    (hN : 10 < exs.length) :
    (∀ (d : DB) (q : String) (data : AIData),
      getMemory (handleQuery d ⟨q, some cid, some uid⟩ (fun _ => Except.ok data)
          freshId nowIso shuffled).db cid
        = takeLast 20 (getMemory d cid ++ [⟨"user", q⟩, ⟨"assistant", data.answer⟩])) ∧
    getMemory (runExchanges db cid uid freshId nowIso shuffled exs) cid
      = msgsOf (exs.drop (exs.length - 10)) ∧
    (getMemory (runExchanges db cid uid freshId nowIso shuffled exs) cid).length = 20 := by
  have hrun := runExchanges_memory cid uid freshId nowIso shuffled exs db (by omega)
  have hlen := msgsOf_length exs
  have h20 : 20 ≤ (msgsOf exs).length := by omega
  have hdrop : takeLast 20 (msgsOf exs) = msgsOf (exs.drop (exs.length - 10)) := by
    rw [msgsOf_drop exs (exs.length - 10)]
    unfold takeLast
    congr 1
    omega
  refine ⟨fun d q data => handleQuery_memory_step d cid uid q freshId nowIso shuffled data,
    ?_, ?_⟩
  · rw [hrun, takeLast_append_of_le _ _ _ h20, hdrop]
  · rw [hrun, takeLast_append_of_le _ _ _ h20, takeLast_length]
    omega

/-- Eleven concrete exchanges on one session. -/
def exsW : List (String × AIData) :=
  [("q1", ⟨none, "a1", none⟩), ("q2", ⟨none, "a2", none⟩), ("q3", ⟨none, "a3", none⟩),
   ("q4", ⟨none, "a4", none⟩), ("q5", ⟨none, "a5", none⟩), ("q6", ⟨none, "a6", none⟩),
   ("q7", ⟨none, "a7", none⟩), ("q8", ⟨none, "a8", none⟩), ("q9", ⟨none, "a9", none⟩),
   ("q10", ⟨none, "a10", none⟩), ("q11", ⟨none, "a11", none⟩)]

/-- C3 witness: after 11 exchanges the stored memory is exactly the
messages of exchanges 2..11 — 20 entries. -/
theorem c3_memory_bound_witness :
    getMemory (runExchanges emptyDB "c" "u" "f" "t" [] exsW) "c" = msgsOf (exsW.drop 1) ∧
    (getMemory (runExchanges emptyDB "c" "u" "f" "t" [] exsW) "c").length = 20 := by
  have h := c3_memory_bound emptyDB "c" "u" "f" "t" [] exsW (by decide)
  exact ⟨h.2.1, h.2.2⟩

end GCN
